import Mathlib

/-!
Verification development for the WebCheck URL health checker
(`webcheck.py`).  The Python code is shallowly embedded: strings are
lists of characters, CPython floats are modelled as rationals, network
calls and random jitter become explicit oracles, and the cooperative
concurrency of the rate limiter becomes a small-step trace semantics.
-/

namespace WebCheck

/-- Strings of the embedded program: Python `str` as a list of characters. -/
abbrev Str := List Char

/-! ## Python string primitives used by `webcheck.py` -/

/-- Whitespace recognised by Python `str.strip()` / `str.split()`
(restricted to the ASCII whitespace characters). -/
def pyIsSpace (c : Char) : Bool :=
  c = ' ' || c = '\t' || c = '\n' || c = '\r' || c = '\x0b' || c = '\x0c'

/-- Python `str.strip()`. -/
def pyStrip (s : Str) : Str :=
  ((s.dropWhile pyIsSpace).reverse.dropWhile pyIsSpace).reverse

/-- Worker for `pySplitWs`; the fuel is an upper bound on the number of
characters still to be consumed, so `pySplitWs` itself is total and
computable by the kernel. -/
def pySplitWsAux : ℕ → Str → List Str
  | 0, _ => []
  | _ + 1, [] => []
  | fuel + 1, c :: rest =>
    if pyIsSpace c then pySplitWsAux fuel rest
    else (c :: rest.takeWhile (fun d => !(pyIsSpace d))) ::
      pySplitWsAux fuel (rest.dropWhile (fun d => !(pyIsSpace d)))

/-- Python `str.split()` with no argument: split on runs of whitespace,
dropping empty pieces. -/
def pySplitWs (s : Str) : List Str :=
  pySplitWsAux s.length s

/-- Worker for `replaceAll` (fuel-driven for kernel computability). -/
def replaceAllAux (pat rep : Str) : ℕ → Str → Str
  | 0, s => s
  | _ + 1, [] => []
  | fuel + 1, c :: rest =>
    if pat ≠ [] ∧ pat.isPrefixOf (c :: rest) then
      rep ++ replaceAllAux pat rep fuel ((c :: rest).drop pat.length)
    else
      c :: replaceAllAux pat rep fuel rest

/-- Python `str.replace(pat, rep)`: leftmost, non-overlapping. -/
def replaceAll (pat rep s : Str) : Str :=
  replaceAllAux pat rep s.length s

/-- Python `str.lower()` (ASCII case folding). -/
def pyLower (s : Str) : Str := s.map Char.toLower

/-- `true` when the body has no two consecutive underscores. -/
def noDoubleUnderscore : Str → Bool
  | [] => true
  | [_] => true
  | a :: b :: t => !(a = '_' && b = '_') && noDoubleUnderscore (b :: t)

/-- A valid digit body for Python `int(s, 10)`: non-empty, made of digits
and underscores, with an underscore only between two digits. -/
def pyIntDigits (body : Str) : Bool :=
  !body.isEmpty &&
  body.all (fun c => c.isDigit || c = '_') &&
  (match body.head? with | some c => c.isDigit | none => false) &&
  (match body.getLast? with | some c => c.isDigit | none => false) &&
  noDoubleUnderscore body

/-- Numeric value of a digit string. -/
def digitsVal (s : Str) : ℕ :=
  s.foldl (fun a c => 10 * a + (c.toNat - 48)) 0

/-- Python `int(s, 10)`: strip whitespace, optional sign, digits with
underscore separators; `none` models a raised `ValueError`. -/
def pyInt (s : Str) : Option ℤ :=
  match pyStrip s with
  | '+' :: body =>
    if pyIntDigits body then some (digitsVal (body.filter Char.isDigit)) else none
  | '-' :: body =>
    if pyIntDigits body then some (-(digitsVal (body.filter Char.isDigit) : ℤ)) else none
  | body =>
    if pyIntDigits body then some (digitsVal (body.filter Char.isDigit)) else none

/-! ## `urllib.parse` (the parts used by `webcheck.py`) -/

/-- Characters allowed in a URL scheme (`urllib.parse.scheme_chars`). -/
def schemeChar (c : Char) : Bool :=
  c.isAlphanum || c = '+' || c = '-' || c = '.'

/-- Result of `urllib.parse.urlparse`. -/
structure UrlParts where
  scheme : Str
  netloc : Str
  path : Str
  params : Str
  query : Str
  fragment : Str
  deriving DecidableEq

/-- Scheme detection of `urlsplit`: chop `scheme:` off the front when the
part before the first `:` is a plausible scheme; the scheme is
lower-cased. -/
def splitScheme (url : Str) : Str × Str :=
  let pre := url.takeWhile (fun c => c ≠ ':')
  if decide (pre.length < url.length) && !pre.isEmpty &&
      (match url.head? with | some c => c.isAlpha | none => false) &&
      pre.all schemeChar then
    (pyLower pre, url.drop (pre.length + 1))
  else
    ([], url)

/-- `_splitnetloc`: the netloc runs up to the first `/`, `?` or `#`. -/
def splitNetlocAt (url : Str) : Str × Str :=
  let nl := url.takeWhile (fun c => c ≠ '/' && c ≠ '?' && c ≠ '#')
  (nl, url.drop nl.length)

/-- `urllib.parse.urlsplit` (CPython 3.10 behaviour).  `Except.error`
models the `ValueError` raised on a netloc with mismatched square
brackets; the extra bracketed-host address validation added in CPython
3.11 is not modelled, as no claim exercises bracketed hosts. -/
def pyUrlsplit (url0 : Str) : Except Unit UrlParts :=
  let sp := splitScheme url0
  let nlSplit :=
    if sp.2.take 2 = ['/', '/'] then splitNetlocAt (sp.2.drop 2)
    else ([], sp.2)
  if (nlSplit.1.contains '[' ≠ nlSplit.1.contains ']') then
    .error ()
  else
    let frSplit :=
      if nlSplit.2.contains '#' then
        (nlSplit.2.takeWhile (fun c => c ≠ '#'),
          (nlSplit.2.dropWhile (fun c => c ≠ '#')).drop 1)
      else (nlSplit.2, [])
    let quSplit :=
      if frSplit.1.contains '?' then
        (frSplit.1.takeWhile (fun c => c ≠ '?'),
          (frSplit.1.dropWhile (fun c => c ≠ '?')).drop 1)
      else (frSplit.1, [])
    .ok ⟨sp.1, nlSplit.1, quSplit.1, [], quSplit.2, frSplit.2⟩

/-- Schemes for which `urlparse` splits path parameters
(`urllib.parse.uses_params`, minus the empty scheme handled separately). -/
def usesParams : List Str :=
  [[], ("ftp").toList, ("hdl").toList, ("prospero").toList, ("http").toList,
    ("imap").toList, ("https").toList, ("shttp").toList, ("rtsp").toList,
    ("rtspu").toList, ("sip").toList, ("sips").toList, ("mms").toList,
    ("sftp").toList, ("tel").toList]

/-- The characters after the last occurrence of `sep` (the whole string
when `sep` does not occur): Python `s.rpartition(sep)[2]`. -/
def afterLast (sep : Char) (s : Str) : Str :=
  (s.reverse.takeWhile (fun c => c ≠ sep)).reverse

/-- `urllib.parse._splitparams`. -/
def splitParams (p : Str) : Str × Str :=
  if p.contains '/' then
    let t := afterLast '/' p
    if t.contains ';' then
      (p.take (p.length - t.length) ++ t.takeWhile (fun c => c ≠ ';'),
        (t.dropWhile (fun c => c ≠ ';')).drop 1)
    else (p, [])
  else
    (p.takeWhile (fun c => c ≠ ';'), (p.dropWhile (fun c => c ≠ ';')).drop 1)

/-- `urllib.parse.urlparse`: `urlsplit` plus path-parameter splitting. -/
def pyUrlparse (url : Str) : Except Unit UrlParts :=
  match pyUrlsplit url with
  | .error e => .error e
  | .ok p =>
    if p.scheme ∈ usesParams ∧ p.path.contains ';' then
      let sp := splitParams p.path
      .ok { p with path := sp.1, params := sp.2 }
    else
      .ok p

/-- `SplitResult._hostinfo`: raw host part and optional port string of a
netloc. -/
def hostinfoOf (netloc : Str) : Str × Option Str :=
  let hostinfo := if netloc.contains '@' then afterLast '@' netloc else netloc
  if hostinfo.contains '[' then
    let bracketed := (hostinfo.dropWhile (fun c => c ≠ '[')).drop 1
    let hostname := bracketed.takeWhile (fun c => c ≠ ']')
    let rest := (bracketed.dropWhile (fun c => c ≠ ']')).drop 1
    let port := (rest.dropWhile (fun c => c ≠ ':')).drop 1
    (hostname, if port = [] then none else some port)
  else
    let hostname := hostinfo.takeWhile (fun c => c ≠ ':')
    let port := (hostinfo.dropWhile (fun c => c ≠ ':')).drop 1
    (hostname, if port = [] then none else some port)

/-- `SplitResult.hostname`: `none` for an empty host, otherwise the host
lower-cased up to a `%` zone separator. -/
def pyHostname (netloc : Str) : Option Str :=
  let h := (hostinfoOf netloc).1
  if h = [] then none
  else
    let pre := h.takeWhile (fun c => c ≠ '%')
    some (pyLower pre ++ h.drop pre.length)

/-- `SplitResult.port`: `Except.error` models the `ValueError` raised on a
non-integer or out-of-range port. -/
def pyPortExc (netloc : Str) : Except Unit (Option ℤ) :=
  match (hostinfoOf netloc).2 with
  | none => .ok none
  | some p =>
    match pyInt p with
    | none => .error ()
    | some v => if 0 ≤ v ∧ v ≤ 65535 then .ok (some v) else .error ()

/-! ## `normalize_url` -/

/-- The whitespace-normalisation steps of `normalize_url`:
`" ".join(raw.split())` followed by
`raw.replace(" :", ":").replace(": ", ":")`. -/
def cleanUrl (s : Str) : Str :=
  replaceAll ((": ").toList) ((":").toList)
    (replaceAll ((" :").toList) ((":").toList)
      (List.intercalate [' '] (pySplitWs s)))

/-- `raw.startswith(("http://", "https://"))`. -/
def schemePresent (s : Str) : Bool :=
  ("http://").toList.isPrefixOf s || ("https://").toList.isPrefixOf s

/-- The scheme-prefixing step of `normalize_url`. -/
def withScheme (s : Str) : Str :=
  if schemePresent s then s else ("https://").toList ++ s

/-- `return raw if parsed.hostname else None`. -/
def checkedUrl (raw netloc : Str) : Option Str :=
  if (pyHostname netloc).isSome then some raw else none

/-- The parse-and-validate stage of `normalize_url`: parse; if the port
is unparsable (`ValueError`), drop the port, keep the path, re-parse;
reject when no hostname is present. -/
def normalizeParse (raw : Str) : Except Unit (Option Str) :=
  match pyUrlparse raw with
  | .error e => .error e
  | .ok parsed =>
    match pyPortExc parsed.netloc with
    | .ok _ => .ok (checkedUrl raw parsed.netloc)
    | .error _ =>
      match pyHostname parsed.netloc with
      | none => .ok none
      | some host =>
        match pyUrlparse (parsed.scheme ++ ("://").toList ++ host ++
            parsed.path) with
        | .error e => .error e
        | .ok p2 =>
          .ok (checkedUrl (parsed.scheme ++ ("://").toList ++ host ++
            parsed.path) p2.netloc)

/-- `normalize_url` from `webcheck.py` (lines 163-189): strip, reject the
empty string, collapse whitespace and colon spacing, prefix `https://`
when no scheme is present, then parse and validate.  The `Except` layer
records the `ValueError` that `urlparse` itself can raise (it is not
caught in the source); `Option` is the function's own `None`. -/
def normalize_url (raw0 : Str) : Except Unit (Option Str) :=
  let r1 := pyStrip raw0
  if r1 = [] then .ok none
  else normalizeParse (withScheme (cleanUrl r1))

/-! ## Data model -/

/-- The `Config` dataclass of `webcheck.py` (lines 52-63), floats as
rationals.  The field defaults are the dataclass defaults. -/
structure Config where
  concurrency : ℕ := 30
  retries : ℕ := 3
  dns_timeout : ℚ := 3.0
  tcp_timeout : ℚ := 3.0
  http_timeout : ℚ := 10.0
  rate_limit_delay : ℚ := 0.1
  jitter_max : ℚ := 0.3
  ssl_verify : Bool := true
  error_only : Bool := false
  verbose : Bool := false
  deriving DecidableEq

/-- One input entry produced by `load_urls`: group label, original line,
raw URL text and normalized URL. -/
structure Entry where
  group : Str
  original : Str
  raw : Str
  url : Str
  deriving DecidableEq

/-- The `CheckResult` dataclass (lines 131-154). -/
structure CheckResult where
  group : Str
  original : Str
  url : Str
  dns_ip : Option Str
  dns_error : Option Str
  dns_latency : Option ℚ
  tcp_ok : Option Bool
  tcp_error : Option Str
  tcp_latency : Option ℚ
  http_status : Option ℕ
  http_error : Option Str
  http_latency : Option ℚ
  captcha : Bool
  deriving DecidableEq

/-- `CheckResult.is_success` (lines 148-154). -/
def CheckResult.is_success (r : CheckResult) : Bool :=
  r.dns_ip.isSome && (r.tcp_ok == some true) &&
  (match r.http_status with | some s => decide (s < 400) | none => false) &&
  !r.captcha

/-! ## Classifier and aggregator -/

/-- The `colorama` colors `colorize` can return. -/
inductive Color
  | green
  | yellow
  | red
  deriving DecidableEq

/-- The icon constants `ICON_OK`, `ICON_WARN`, `ICON_ERROR`,
`ICON_CAPTCHA` (lines 105-108). -/
inductive Icon
  | ok
  | warn
  | error
  | captcha
  deriving DecidableEq

/-- Python truthiness of the optional integer `result.http_status`. -/
def pyTruthyStatus : Option ℕ → Bool
  | none => false
  | some s => decide (s ≠ 0)

/-- `colorize` (lines 448-458).  Note the source tests the status with
`result.http_status and result.http_status >= 400`, i.e. Python
truthiness, and `result.tcp_ok is False`. -/
def colorize (r : CheckResult) : Color × Icon :=
  if r.captcha then (.yellow, .captcha)
  else if r.dns_ip = none then (.red, .error)
  else if r.tcp_ok = some false then (.red, .error)
  else if pyTruthyStatus r.http_status && decide (400 ≤ r.http_status.getD 0) then
    (.red, .error)
  else (.green, .ok)

/-- The derived three-way outcome of a check, as the summary builder
reads it off the `colorize` icon (`ICON_OK` ↦ ok, `ICON_CAPTCHA` ↦
warning, anything else ↦ failure). -/
inductive Outcome
  | ok
  | warning
  | failure
  deriving DecidableEq

/-- Classification of a `CheckResult`. -/
def outcomeOf (r : CheckResult) : Outcome :=
  match (colorize r).2 with
  | .ok => .ok
  | .captcha => .warning
  | _ => .failure

/-- One `{"ok": _, "warn": _, "fail": _}` bucket triple of the summary. -/
structure Counts where
  ok : ℕ := 0
  warn : ℕ := 0
  fail : ℕ := 0
  deriving DecidableEq

/-- The increment `build_summary` applies for one result's icon. -/
def bump (c : Counts) (i : Icon) : Counts :=
  match i with
  | .ok => { c with ok := c.ok + 1 }
  | .captcha => { c with warn := c.warn + 1 }
  | _ => { c with fail := c.fail + 1 }

/-- Insert-or-update of the summary dict for one result: missing keys are
appended with zero counts, then the bucket for `i` is incremented. -/
def updateGroup : List (Str × Counts) → Str → Icon → List (Str × Counts)
  | [], g, i => [(g, bump {} i)]
  | (g', c) :: t, g, i =>
    if g' = g then (g', bump c i) :: t else (g', c) :: updateGroup t g i

/-- `build_summary` (lines 493-510); the Python dict keyed by group label
becomes an insertion-ordered association list. -/
def build_summary (rs : List CheckResult) : List (Str × Counts) :=
  rs.foldl (fun s r => updateGroup s r.group (colorize r).2) []

/-- Dict lookup in the summary. -/
def lookupGroup : List (Str × Counts) → Str → Option Counts
  | [], _ => none
  | (g', c) :: t, g => if g' = g then some c else lookupGroup t g

/-- Componentwise sum of two bucket triples. -/
def addCounts (a b : Counts) : Counts :=
  ⟨a.ok + b.ok, a.warn + b.warn, a.fail + b.fail⟩

/-- The bucket counts of group `g` over a result list, expressed with
counting predicates (used to reason about `build_summary`). -/
def countsOf (l : List CheckResult) (g : Str) : Counts :=
  ⟨l.countP (fun r => r.group == g && ((colorize r).2 == Icon.ok)),
    l.countP (fun r => r.group == g && ((colorize r).2 == Icon.captcha)),
    l.countP (fun r => r.group == g && !((colorize r).2 == Icon.ok) &&
      !((colorize r).2 == Icon.captcha))⟩

/-- A concrete healthy check result (group `A`), used in example
batches. -/
def exampleOk : CheckResult :=
  ⟨("A").toList, [], [], some (("1").toList), none, none, some true, none,
    none, some 200, none, none, false⟩

/-- A concrete DNS-failed check result (group `A`), used in example
batches. -/
def exampleFail : CheckResult :=
  ⟨("A").toList, [], [], none, some (("no").toList), none, none, none, none,
    none, none, none, false⟩

/-- A concrete result whose HTTP stage failed after DNS and TCP
succeeded: `http_status` absent, `http_error` recorded. -/
def exampleHttpErr : CheckResult :=
  ⟨("A").toList, [], [], some (("1").toList), none, none, some true, none,
    none, none, some (("HTTP timeout").toList), none, false⟩

/-! ## Probe stages

Each network attempt is an oracle value: the environment's response to
attempt number `k` performed with a given per-attempt timeout.  Random
backoff jitter is a second oracle `jit : ℕ → ℚ`.  The probes record,
besides the value the source returns, the observable effects of the
retry loop: how many attempts ran, which backoff sleeps were performed,
and which timeout was passed to `asyncio.wait_for` on each attempt. -/

/-- Environment outcome of one DNS resolution attempt. -/
inductive DnsAttempt
  | found (ip : Str) (lat : ℚ)
  | timeout
  | err (msg : Str)
  deriving DecidableEq

/-- The error description the DNS stage records: `"DNS timeout"` for
`asyncio.TimeoutError`, `str(e)` otherwise. -/
def DnsAttempt.describe : DnsAttempt → Str
  | .timeout => ("DNS timeout").toList
  | .err m => m
  | .found _ _ => []

/-- Environment outcome of one TCP connect attempt. -/
inductive TcpAttempt
  | connected (lat : ℚ)
  | timeout
  | err (msg : Str)
  deriving DecidableEq

/-- Error description of the TCP stage. -/
def TcpAttempt.describe : TcpAttempt → Str
  | .timeout => ("TCP timeout").toList
  | .err m => m
  | .connected _ => []

/-- Environment outcome of one HTTP GET attempt; `captcha` stands for
`detect_captcha` applied to the response body and headers. -/
inductive HttpAttempt
  | response (status : ℕ) (captcha : Bool) (lat : ℚ)
  | timeout
  | err (msg : Str)
  deriving DecidableEq

/-- Error description of the HTTP stage. -/
def HttpAttempt.describe : HttpAttempt → Str
  | .timeout => ("HTTP timeout").toList
  | .err m => m
  | .response _ _ _ => []

/-- Value plus execution trace of one probe stage. -/
structure ProbeRun (α : Type) where
  value : α
  attempts : ℕ
  sleeps : List ℚ
  timeouts : List ℚ
  deriving DecidableEq

/-- The shared `for attempt in range(retries + 1)` retry loop of the
three probes: try the attempt; on success return; on failure of attempt
`retries` return the failure built from that attempt; otherwise sleep
`base * 2 ** attempt + uniform(0, jitterBound)` and retry.  `unknown` is
the dead `return ... "Unknown error" ...` after the loop, reachable only
when the fuel is exhausted early. -/
def retryLoop {A T : Type} (attempt : ℕ → ℚ → A) (succ : A → Option T)
    (fail : A → T) (unknown : T) (base tout : ℚ) (jit : ℕ → ℚ)
    (retries : ℕ) : ℕ → ℕ → ProbeRun T
  | _, 0 => ⟨unknown, 0, [], []⟩
  | k, fuel + 1 =>
    match succ (attempt k tout) with
    | some v => ⟨v, 1, [], [tout]⟩
    | none =>
      if k = retries then ⟨fail (attempt k tout), 1, [], [tout]⟩
      else
        let rest := retryLoop attempt succ fail unknown base tout jit retries (k + 1) fuel
        ⟨rest.value, rest.attempts + 1,
          (base * 2 ^ k + jit k) :: rest.sleeps, tout :: rest.timeouts⟩

/-- `async_dns_lookup` (lines 290-316): per-attempt timeout hard-coded to
`3.0`, backoff `0.2 * (2 ** attempt) + uniform(0, 0.1)`. -/
def async_dns_lookup (o : ℕ → ℚ → DnsAttempt) (jit : ℕ → ℚ) (retries : ℕ) :
    ProbeRun (Option Str × Option Str × Option ℚ) :=
  retryLoop o
    (fun a => match a with
      | .found ip lat => some (some ip, none, some lat)
      | _ => none)
    (fun a => (none, some a.describe, none))
    (none, some (("Unknown error").toList), none)
    0.2 3.0 jit retries 0 (retries + 1)

/-- `async_tcp_check` (lines 319-348): per-attempt timeout hard-coded to
`3.0`, backoff `0.2 * (2 ** attempt) + uniform(0, 0.1)`. -/
def async_tcp_check (o : ℕ → ℚ → TcpAttempt) (jit : ℕ → ℚ) (retries : ℕ) :
    ProbeRun (Bool × Option Str × Option ℚ) :=
  retryLoop o
    (fun a => match a with
      | .connected lat => some (true, none, some lat)
      | _ => none)
    (fun a => (false, some a.describe, none))
    (false, some (("Unknown error").toList), none)
    0.2 3.0 jit retries 0 (retries + 1)

/-- `async_http_check` (lines 351-384): per-attempt timeout hard-coded to
`10.0`, backoff `0.3 * (2 ** attempt) + uniform(0, 0.2)`.  The
per-attempt `rate_limiter.wait()` and header rotation are absorbed into
the attempt oracle. -/
def async_http_check (o : ℕ → ℚ → HttpAttempt) (jit : ℕ → ℚ) (retries : ℕ) :
    ProbeRun (Option ℕ × Option Str × Bool × Option ℚ) :=
  retryLoop o
    (fun a => match a with
      | .response st cap lat => some (some st, none, cap, some lat)
      | _ => none)
    (fun a => (none, some a.describe, false, none))
    (none, some (("Unknown error").toList), false, none)
    0.3 10.0 jit retries 0 (retries + 1)

/-! ## Orchestrator -/

/-- Python truthiness of the optional string `dns_ip` (`if not dns_ip`). -/
def pyTruthyOptStr : Option Str → Bool
  | none => false
  | some s => !s.isEmpty

/-- `check_url` (lines 389-443): DNS lookup; on falsy `dns_ip` return the
short-circuit result with every downstream field unset; otherwise run the
TCP and HTTP stages unconditionally and assemble the full result.  The
host/port arguments the source forwards to the probes are absorbed into
the corresponding oracles. -/
def check_url (cfg : Config) (dnsO : ℕ → ℚ → DnsAttempt)
    (tcpO : ℕ → ℚ → TcpAttempt) (httpO : ℕ → ℚ → HttpAttempt)
    (jitD jitT jitH : ℕ → ℚ) (entry : Entry) : CheckResult :=
  let dns := (async_dns_lookup dnsO jitD cfg.retries).value
  if !(pyTruthyOptStr dns.1) then
    { group := entry.group, original := entry.original, url := entry.url
      dns_ip := dns.1, dns_error := dns.2.1, dns_latency := dns.2.2
      tcp_ok := none, tcp_error := none, tcp_latency := none
      http_status := none, http_error := none, http_latency := none
      captcha := false }
  else
    let tcp := (async_tcp_check tcpO jitT cfg.retries).value
    let http := (async_http_check httpO jitH cfg.retries).value
    { group := entry.group, original := entry.original, url := entry.url
      dns_ip := dns.1, dns_error := dns.2.1, dns_latency := dns.2.2
      tcp_ok := some tcp.1, tcp_error := tcp.2.1, tcp_latency := tcp.2.2
      http_status := http.1, http_error := http.2.1
      http_latency := http.2.2.2, captcha := http.2.2.1 }

/-! ## RateLimiter

`RateLimiter.wait` (lines 253-271) runs on one asyncio event loop, so
each caller's execution is two atomic phases: the synchronous prefix
(read `time.time()` and `self.last_request`, compute the wait; when no
wait is needed, also write `self.last_request` and return — all without
suspending) and, for callers that sleep, the resumption (write
`self.last_request = time.time()` and return).  A trace is a list of
such atomic events; `asyncio.sleep(d)` resumes no earlier than `d`
seconds after it starts.  A caller's grant time is the moment `wait()`
returns, i.e. the moment its HTTP attempt begins. -/

/-- The two limiter parameters `delay` and `jitter`. -/
structure LimCfg where
  delay : ℚ
  jitter : ℚ
  deriving DecidableEq

/-- Atomic scheduler events: `call c t` is caller `c` entering `wait()`
at time `t`; `wake c t` is caller `c` resuming from its sleep at `t`. -/
inductive LEvent
  | call (c : ℕ) (t : ℚ)
  | wake (c : ℕ) (t : ℚ)
  deriving DecidableEq

/-- Limiter machine state: the shared `last_request` timestamp, a lower
bound on the current wall clock, the sleeping callers with their
earliest resumption times, and the grants issued so far (in order). -/
structure LimSt where
  last : ℚ
  now : ℚ
  sleeping : List (ℕ × ℚ)
  granted : List (ℕ × ℚ)
  deriving DecidableEq

/-- Wake time registered for a sleeping caller. -/
def lookupSleep : List (ℕ × ℚ) → ℕ → Option ℚ
  | [], _ => none
  | (c', w) :: t, c => if c' = c then some w else lookupSleep t c

/-- Remove a caller from the sleeping list. -/
def removeSleep : List (ℕ × ℚ) → ℕ → List (ℕ × ℚ)
  | [], _ => []
  | (c', w) :: t, c => if c' = c then t else (c', w) :: removeSleep t c

/-- Whether caller `c` already entered the limiter in this trace. -/
def activeCaller (st : LimSt) (c : ℕ) : Bool :=
  (lookupSleep st.sleeping c).isSome || st.granted.any (fun g => g.1 = c)

/-- Initial limiter state: `self.last_request = 0.0`. -/
def limInit : LimSt := ⟨0, 0, [], []⟩

/-- One atomic event of `RateLimiter.wait`.  `call c t`: caller `c` reads
`now = t` and `self.last_request`; if `delay - elapsed > 0` it starts
`asyncio.sleep(wait_time + uniform(0, jitter))`, else it immediately
writes `self.last_request = t` and is granted.  `wake c t`: a sleeping
caller resumes (no earlier than its scheduled wake time), writes
`self.last_request = t` and is granted.  `none` marks an inadmissible
schedule. -/
def limStep (cfg : LimCfg) (jit : ℕ → ℚ) (st : LimSt) : LEvent → Option LimSt
  | .call c t =>
    if st.now ≤ t ∧ !(activeCaller st c) then
      let elapsed := t - st.last
      let w := cfg.delay - elapsed
      if 0 < w then
        if 0 ≤ jit c ∧ jit c ≤ cfg.jitter then
          some { st with now := t, sleeping := (c, t + w + jit c) :: st.sleeping }
        else none
      else
        some { last := t, now := t, sleeping := st.sleeping,
               granted := st.granted ++ [(c, t)] }
    else none
  | .wake c t =>
    match lookupSleep st.sleeping c with
    | some wt =>
      if st.now ≤ t ∧ wt ≤ t then
        some { last := t, now := t, sleeping := removeSleep st.sleeping c,
               granted := st.granted ++ [(c, t)] }
      else none
    | none => none

/-- Run a list of events through the limiter. -/
def limRun (cfg : LimCfg) (jit : ℕ → ℚ) : LimSt → List LEvent → Option LimSt
  | st, [] => some st
  | st, e :: es =>
    match limStep cfg jit st e with
    | some st' => limRun cfg jit st' es
    | none => none

/-- Run of a sequential schedule: same semantics, but a caller may enter
`wait()` only when no other caller is inside it (sleeping list empty),
i.e. the limiter is never used concurrently. -/
def limRunSeq (cfg : LimCfg) (jit : ℕ → ℚ) : LimSt → List LEvent → Option LimSt
  | st, [] => some st
  | st, e :: es =>
    let okSeq := match e with
      | .call _ _ => st.sleeping.isEmpty
      | .wake _ _ => true
    if okSeq then
      match limStep cfg jit st e with
      | some st' => limRunSeq cfg jit st' es
      | none => none
    else none

/-- Consecutive grants are at least `d` apart. -/
def spacedBy (d : ℚ) (gs : List (ℕ × ℚ)) : Prop :=
  List.Chain' (fun a b => d ≤ b.2 - a.2) gs

/-! ## Supporting lemmas about the retry loop -/

theorem retryLoop_timeouts {A T : Type} (attempt : ℕ → ℚ → A)
    (succ : A → Option T) (fail : A → T) (unknown : T) (base tout : ℚ)
    (jit : ℕ → ℚ) (R : ℕ) :
    ∀ fuel k,
      (retryLoop attempt succ fail unknown base tout jit R k fuel).timeouts =
        List.replicate
          (retryLoop attempt succ fail unknown base tout jit R k fuel).attempts
          tout := by
  intro fuel
  induction fuel with
  | zero => intro k; rfl
  | succ f ih =>
    intro k
    unfold retryLoop
    cases succ (attempt k tout) with
    | some v => rfl
    | none =>
      by_cases hk : k = R
      · simp [hk]
      · simp only [hk, if_false, ite_false]
        simp [ih (k + 1), List.replicate_succ]

theorem retryLoop_attempts_pos {A T : Type} (attempt : ℕ → ℚ → A)
    (succ : A → Option T) (fail : A → T) (unknown : T) (base tout : ℚ)
    (jit : ℕ → ℚ) (R : ℕ) :
    ∀ fuel k, 1 ≤ fuel →
      1 ≤ (retryLoop attempt succ fail unknown base tout jit R k fuel).attempts := by
  intro fuel k hf
  match fuel, hf with
  | f + 1, _ =>
    unfold retryLoop
    cases succ (attempt k tout) with
    | some v => simp
    | none =>
      by_cases hk : k = R
      · simp [hk]
      · simp [hk]

theorem retryLoop_allfail {A T : Type} (attempt : ℕ → ℚ → A)
    (succ : A → Option T) (fail : A → T) (unknown : T) (base tout : ℚ)
    (jit : ℕ → ℚ) (R : ℕ) (h : ∀ k, succ (attempt k tout) = none) :
    ∀ fuel k, k ≤ R → k + fuel = R + 1 →
      retryLoop attempt succ fail unknown base tout jit R k fuel =
        ⟨fail (attempt R tout), fuel,
          (List.range' k (fuel - 1)).map (fun i => base * 2 ^ i + jit i),
          List.replicate fuel tout⟩ := by
  intro fuel
  induction fuel with
  | zero => intro k hkR hsum; omega
  | succ f ih =>
    intro k hkR hsum
    unfold retryLoop
    rw [h k]
    by_cases hk : k = R
    · have hf : f = 0 := by omega
      subst hk hf
      simp
    · have hk1 : k + 1 ≤ R := by omega
      have hf1 : 1 ≤ f := by omega
      rw [if_neg hk, ih (k + 1) hk1 (by omega)]
      have hrange : List.range' k f = k :: List.range' (k + 1) (f - 1) := by
        have hf : f = (f - 1) + 1 := by omega
        conv_lhs => rw [hf]
        rw [List.range'_succ]
      simp [hrange, List.replicate_succ]

theorem retryLoop_value_cases {A T : Type} (attempt : ℕ → ℚ → A)
    (succ : A → Option T) (fail : A → T) (unknown : T) (base tout : ℚ)
    (jit : ℕ → ℚ) (R : ℕ) :
    ∀ fuel k, k ≤ R → k + fuel = R + 1 →
      (∃ j v, k ≤ j ∧ j ≤ R ∧ succ (attempt j tout) = some v ∧
        (retryLoop attempt succ fail unknown base tout jit R k fuel).value = v) ∨
      ((∀ j, k ≤ j → j ≤ R → succ (attempt j tout) = none) ∧
        (retryLoop attempt succ fail unknown base tout jit R k fuel).value =
          fail (attempt R tout)) := by
  intro fuel
  induction fuel with
  | zero => intro k hkR hsum; omega
  | succ f ih =>
    intro k hkR hsum
    unfold retryLoop
    cases hs : succ (attempt k tout) with
    | some v => exact Or.inl ⟨k, v, le_refl k, hkR, hs, rfl⟩
    | none =>
      by_cases hk : k = R
      · refine Or.inr ⟨?_, by simp [hk]⟩
        intro j hj1 hj2
        have : j = k := by omega
        rwa [this]
      · have hk1 : k + 1 ≤ R := by omega
        rcases ih (k + 1) hk1 (by omega) with ⟨j, v, hj1, hj2, hjs, hv⟩ | ⟨hall, hv⟩
        · exact Or.inl ⟨j, v, by omega, hj2, hjs, by simp [hk, hv]⟩
        · refine Or.inr ⟨?_, by simp [hk, hv]⟩
          intro j hj1 hj2
          rcases Nat.eq_or_lt_of_le hj1 with heq | hlt
          · rwa [← heq]
          · exact hall j (by omega) hj2

/-- The first component of a DNS probe value is `some ip` only when some
attempt actually resolved `ip`. -/
theorem dns_value_some (o : ℕ → ℚ → DnsAttempt) (jit : ℕ → ℚ) (R : ℕ)
    (ip : Str) (h : (async_dns_lookup o jit R).value.1 = some ip) :
    ∃ k lat, k ≤ R ∧ o k 3.0 = .found ip lat := by
  unfold async_dns_lookup at h
  rcases retryLoop_value_cases
      (fun k t => o k t)
      (fun a => match a with
        | .found ip lat => some (some ip, none, some lat)
        | _ => none)
      (fun a => (none, some a.describe, none))
      (none, some (("Unknown error").toList), none)
      0.2 3.0 jit R (R + 1) 0 (Nat.zero_le R) (by omega)
    with ⟨j, v, _, hj2, hjs, hv⟩ | ⟨_, hv⟩
  · cases ha : o j 3.0 with
    | found ip' lat =>
      rw [ha] at hjs
      simp only at hjs
      have hv2 : v = (some ip', none, some lat) := by
        injection hjs with h'
        exact h'.symm
      rw [hv, hv2] at h
      simp only [Option.some.injEq] at h
      exact ⟨j, lat, hj2, by rw [ha, h]⟩
    | timeout => rw [ha] at hjs; simp at hjs
    | err m => rw [ha] at hjs; simp at hjs
  · rw [hv] at h
    simp at h

/-- The HTTP probe value always carries a status or an error string. -/
theorem http_value_total (o : ℕ → ℚ → HttpAttempt) (jit : ℕ → ℚ) (R : ℕ) :
    (async_http_check o jit R).value.1.isSome ∨
      (async_http_check o jit R).value.2.1.isSome := by
  unfold async_http_check
  rcases retryLoop_value_cases
      (fun k t => o k t)
      (fun a => match a with
        | .response st cap lat => some (some st, none, cap, some lat)
        | _ => none)
      (fun a => (none, some a.describe, false, none))
      (none, some (("Unknown error").toList), false, none)
      0.3 10.0 jit R (R + 1) 0 (Nat.zero_le R) (by omega)
    with ⟨j, v, _, _, hjs, hv⟩ | ⟨_, hv⟩
  · rw [hv]
    cases hb : o j 10.0 with
    | response st cap lat =>
      rw [hb] at hjs
      simp only at hjs
      have hv2 : v = (some st, none, cap, some lat) := by
        injection hjs with h'
        exact h'.symm
      rw [hv2]
      left; rfl
    | timeout => rw [hb] at hjs; simp at hjs
    | err m => rw [hb] at hjs; simp at hjs
  · rw [hv]; right; rfl

theorem async_dns_lookup_allfail (o : ℕ → ℚ → DnsAttempt) (jit : ℕ → ℚ)
    (R : ℕ) (h : ∀ k ip lat, o k 3.0 ≠ DnsAttempt.found ip lat) :
    async_dns_lookup o jit R =
      ⟨(none, some ((o R 3.0).describe), none), R + 1,
        (List.range R).map (fun i => 0.2 * 2 ^ i + jit i),
        List.replicate (R + 1) 3.0⟩ := by
  have hall : ∀ k, (fun a =>
      match a with
      | DnsAttempt.found ip lat =>
        some ((some ip, none, some lat) : Option Str × Option Str × Option ℚ)
      | _ => none) (o k 3.0) = none := by
    intro k
    cases hc : o k 3.0 with
    | found ip lat => exact absurd hc (h k ip lat)
    | timeout => simp
    | err m => simp
  unfold async_dns_lookup
  rw [retryLoop_allfail o _ _ _ 0.2 3.0 jit R hall (R + 1) 0 (Nat.zero_le R)
    (by omega)]
  simp [List.range_eq_range']

theorem async_tcp_check_allfail (o : ℕ → ℚ → TcpAttempt) (jit : ℕ → ℚ)
    (R : ℕ) (h : ∀ k lat, o k 3.0 ≠ TcpAttempt.connected lat) :
    async_tcp_check o jit R =
      ⟨(false, some ((o R 3.0).describe), none), R + 1,
        (List.range R).map (fun i => 0.2 * 2 ^ i + jit i),
        List.replicate (R + 1) 3.0⟩ := by
  have hall : ∀ k, (fun a =>
      match a with
      | TcpAttempt.connected lat =>
        some ((true, none, some lat) : Bool × Option Str × Option ℚ)
      | _ => none) (o k 3.0) = none := by
    intro k
    cases hc : o k 3.0 with
    | connected lat => exact absurd hc (h k lat)
    | timeout => simp
    | err m => simp
  unfold async_tcp_check
  rw [retryLoop_allfail o _ _ _ 0.2 3.0 jit R hall (R + 1) 0 (Nat.zero_le R)
    (by omega)]
  simp [List.range_eq_range']

theorem async_http_check_allfail (o : ℕ → ℚ → HttpAttempt) (jit : ℕ → ℚ)
    (R : ℕ) (h : ∀ k st cap lat, o k 10.0 ≠ HttpAttempt.response st cap lat) :
    async_http_check o jit R =
      ⟨(none, some ((o R 10.0).describe), false, none), R + 1,
        (List.range R).map (fun i => 0.3 * 2 ^ i + jit i),
        List.replicate (R + 1) 10.0⟩ := by
  have hall : ∀ k, (fun a =>
      match a with
      | HttpAttempt.response st cap lat =>
        some ((some st, none, cap, some lat) :
          Option ℕ × Option Str × Bool × Option ℚ)
      | _ => none) (o k 10.0) = none := by
    intro k
    cases hc : o k 10.0 with
    | response st cap lat => exact absurd hc (h k st cap lat)
    | timeout => simp
    | err m => simp
  unfold async_http_check
  rw [retryLoop_allfail o _ _ _ 0.3 10.0 jit R hall (R + 1) 0 (Nat.zero_le R)
    (by omega)]
  simp [List.range_eq_range']

theorem async_dns_lookup_cases (o : ℕ → ℚ → DnsAttempt) (jit : ℕ → ℚ)
    (R : ℕ) :
    (∃ k ip lat, k ≤ R ∧ o k 3.0 = DnsAttempt.found ip lat ∧
      (async_dns_lookup o jit R).value = (some ip, none, some lat)) ∨
    ((∀ k, k ≤ R → ∀ ip lat, o k 3.0 ≠ DnsAttempt.found ip lat) ∧
      (async_dns_lookup o jit R).value =
        (none, some ((o R 3.0).describe), none)) := by
  unfold async_dns_lookup
  rcases retryLoop_value_cases o
      (fun a => match a with
        | DnsAttempt.found ip lat =>
          some ((some ip, none, some lat) : Option Str × Option Str × Option ℚ)
        | _ => none)
      (fun a => ((none, some a.describe, none) :
        Option Str × Option Str × Option ℚ))
      (none, some (("Unknown error").toList), none)
      0.2 3.0 jit R (R + 1) 0 (Nat.zero_le R) (by omega)
    with ⟨j, v, _, hj2, hjs, hv⟩ | ⟨hall, hv⟩
  · cases ha : o j 3.0 with
    | found ip lat =>
      rw [ha] at hjs
      simp only at hjs
      have hv2 : v = (some ip, none, some lat) := by
        injection hjs with h'
        exact h'.symm
      exact Or.inl ⟨j, ip, lat, hj2, ha, by rw [hv, hv2]⟩
    | timeout => rw [ha] at hjs; simp at hjs
    | err m => rw [ha] at hjs; simp at hjs
  · refine Or.inr ⟨?_, hv⟩
    intro k hk ip lat hfound
    have hnone := hall k (Nat.zero_le k) hk
    rw [hfound] at hnone
    simp at hnone

theorem async_tcp_check_cases (o : ℕ → ℚ → TcpAttempt) (jit : ℕ → ℚ)
    (R : ℕ) :
    (∃ k lat, k ≤ R ∧ o k 3.0 = TcpAttempt.connected lat ∧
      (async_tcp_check o jit R).value = (true, none, some lat)) ∨
    ((∀ k, k ≤ R → ∀ lat, o k 3.0 ≠ TcpAttempt.connected lat) ∧
      (async_tcp_check o jit R).value =
        (false, some ((o R 3.0).describe), none)) := by
  unfold async_tcp_check
  rcases retryLoop_value_cases o
      (fun a => match a with
        | TcpAttempt.connected lat =>
          some ((true, none, some lat) : Bool × Option Str × Option ℚ)
        | _ => none)
      (fun a => ((false, some a.describe, none) : Bool × Option Str × Option ℚ))
      (false, some (("Unknown error").toList), none)
      0.2 3.0 jit R (R + 1) 0 (Nat.zero_le R) (by omega)
    with ⟨j, v, _, hj2, hjs, hv⟩ | ⟨hall, hv⟩
  · cases ha : o j 3.0 with
    | connected lat =>
      rw [ha] at hjs
      simp only at hjs
      have hv2 : v = (true, none, some lat) := by
        injection hjs with h'
        exact h'.symm
      exact Or.inl ⟨j, lat, hj2, ha, by rw [hv, hv2]⟩
    | timeout => rw [ha] at hjs; simp at hjs
    | err m => rw [ha] at hjs; simp at hjs
  · refine Or.inr ⟨?_, hv⟩
    intro k hk lat hfound
    have hnone := hall k (Nat.zero_le k) hk
    rw [hfound] at hnone
    simp at hnone

theorem async_http_check_cases (o : ℕ → ℚ → HttpAttempt) (jit : ℕ → ℚ)
    (R : ℕ) :
    (∃ k st cap lat, k ≤ R ∧ o k 10.0 = HttpAttempt.response st cap lat ∧
      (async_http_check o jit R).value = (some st, none, cap, some lat)) ∨
    ((∀ k, k ≤ R → ∀ st cap lat, o k 10.0 ≠ HttpAttempt.response st cap lat) ∧
      (async_http_check o jit R).value =
        (none, some ((o R 10.0).describe), false, none)) := by
  unfold async_http_check
  rcases retryLoop_value_cases o
      (fun a => match a with
        | HttpAttempt.response st cap lat =>
          some ((some st, none, cap, some lat) :
            Option ℕ × Option Str × Bool × Option ℚ)
        | _ => none)
      (fun a => ((none, some a.describe, false, none) :
        Option ℕ × Option Str × Bool × Option ℚ))
      (none, some (("Unknown error").toList), false, none)
      0.3 10.0 jit R (R + 1) 0 (Nat.zero_le R) (by omega)
    with ⟨j, v, _, hj2, hjs, hv⟩ | ⟨hall, hv⟩
  · cases ha : o j 10.0 with
    | response st cap lat =>
      rw [ha] at hjs
      simp only at hjs
      have hv2 : v = (some st, none, cap, some lat) := by
        injection hjs with h'
        exact h'.symm
      exact Or.inl ⟨j, st, cap, lat, hj2, ha, by rw [hv, hv2]⟩
    | timeout => rw [ha] at hjs; simp at hjs
    | err m => rw [ha] at hjs; simp at hjs
  · refine Or.inr ⟨?_, hv⟩
    intro k hk st cap lat hfound
    have hnone := hall k (Nat.zero_le k) hk
    rw [hfound] at hnone
    simp at hnone

/-! ## Supporting lemmas about normalize_url -/

theorem splitScheme_https (s : Str) :
    splitScheme (("https://").toList ++ s) = (("https").toList, '/' :: '/' :: s) := by
  unfold splitScheme
  have h1 : ((("https://").toList ++ s).takeWhile (fun c => c ≠ ':')) =
      ("https").toList := by
    show (('h' :: 't' :: 't' :: 'p' :: 's' :: ':' :: '/' :: '/' :: s).takeWhile
      (fun c => c ≠ ':')) = _
    simp [List.takeWhile_cons]
  rw [h1]
  have hc : (decide (("https").toList.length < (("https://").toList ++ s).length) &&
      !(("https").toList).isEmpty &&
      (match (("https://").toList ++ s).head? with
        | some c => c.isAlpha
        | none => false) &&
      ("https").toList.all schemeChar) = true := by
    have hlen : ("https").toList.length < (("https://").toList ++ s).length := by
      simp [List.length_append]
    simp [hlen]
    decide
  dsimp only
  split
  · rfl
  · next hfalse => exact absurd hc hfalse

theorem pyUrlsplit_ok_scheme (url : Str) (p : UrlParts)
    (h : pyUrlsplit url = .ok p) : p.scheme = (splitScheme url).1 := by
  unfold pyUrlsplit at h
  dsimp only at h
  split at h <;> split at h <;>
    first
      | exact Except.noConfusion h
      | (injection h with h; subst h; rfl)

theorem pyUrlsplit_scheme_https (s : Str) (p : UrlParts)
    (h : pyUrlsplit (("https://").toList ++ s) = .ok p) :
    p.scheme = ("https").toList := by
  rw [pyUrlsplit_ok_scheme _ _ h, splitScheme_https]

theorem pyUrlparse_scheme (url : Str) (p : UrlParts) (h : pyUrlparse url = .ok p) :
    ∃ q : UrlParts, pyUrlsplit url = .ok q ∧ q.scheme = p.scheme := by
  unfold pyUrlparse at h
  cases hs : pyUrlsplit url with
  | error e => rw [hs] at h; simp at h
  | ok q =>
    rw [hs] at h
    dsimp only at h
    by_cases hc : q.scheme ∈ usesParams ∧ q.path.contains ';' = true
    · rw [if_pos hc] at h
      injection h with h
      exact ⟨q, rfl, by rw [← h]⟩
    · rw [if_neg hc] at h
      injection h with h
      exact ⟨q, rfl, by rw [h]⟩

theorem checkedUrl_some (raw netloc u : Str) (h : checkedUrl raw netloc = some u) :
    u = raw ∧ (pyHostname netloc).isSome = true := by
  unfold checkedUrl at h
  by_cases hh : (pyHostname netloc).isSome = true
  · rw [if_pos hh] at h
    injection h with h
    exact ⟨h.symm, hh⟩
  · rw [if_neg hh] at h
    simp at h

theorem normalizeParse_ok_some (raw u : Str)
    (h : normalizeParse raw = .ok (some u)) :
    ∃ parsed, pyUrlparse raw = .ok parsed ∧
      ((pyPortExc parsed.netloc ≠ .error () ∧ u = raw ∧
          (pyHostname parsed.netloc).isSome = true) ∨
        (pyPortExc parsed.netloc = .error () ∧
          ∃ host p2, pyHostname parsed.netloc = some host ∧
            u = parsed.scheme ++ ("://").toList ++ host ++ parsed.path ∧
            pyUrlparse u = .ok p2 ∧ (pyHostname p2.netloc).isSome = true)) := by
  unfold normalizeParse at h
  cases hp : pyUrlparse raw with
  | error e => rw [hp] at h; simp at h
  | ok parsed =>
    rw [hp] at h
    dsimp only at h
    refine ⟨parsed, rfl, ?_⟩
    cases hport : pyPortExc parsed.netloc with
    | ok v =>
      rw [hport] at h
      dsimp only at h
      injection h with h
      obtain ⟨hu, hhn⟩ := checkedUrl_some _ _ _ h
      exact Or.inl ⟨by simp, hu, hhn⟩
    | error e =>
      rw [hport] at h
      dsimp only at h
      cases hhost : pyHostname parsed.netloc with
      | none => rw [hhost] at h; simp at h
      | some host =>
        rw [hhost] at h
        dsimp only at h
        cases hp2 : pyUrlparse (parsed.scheme ++ ("://").toList ++ host ++
            parsed.path) with
        | error e2 => rw [hp2] at h; simp at h
        | ok p2 =>
          rw [hp2] at h
          dsimp only at h
          injection h with h
          obtain ⟨hu, hhn⟩ := checkedUrl_some _ _ _ h
          refine Or.inr ⟨by cases e; rfl, host, p2, rfl, hu, ?_, hhn⟩
          rw [hu]
          exact hp2

theorem normalize_url_ok_some (raw u : Str)
    (h : normalize_url raw = .ok (some u)) :
    pyStrip raw ≠ [] ∧
      normalizeParse (withScheme (cleanUrl (pyStrip raw))) = .ok (some u) := by
  unfold normalize_url at h
  by_cases hr1 : pyStrip raw = []
  · rw [if_pos hr1] at h
    simp at h
  · rw [if_neg hr1] at h
    exact ⟨hr1, h⟩

/-! ## Supporting lemmas about the rate limiter -/

theorem lookupSleep_mem (l : List (ℕ × ℚ)) (c : ℕ) (w : ℚ)
    (h : lookupSleep l c = some w) : (c, w) ∈ l := by
  induction l with
  | nil => simp [lookupSleep] at h
  | cons p t ih =>
    obtain ⟨pc, pw⟩ := p
    by_cases hpc : pc = c
    · subst hpc
      simp [lookupSleep] at h
      simp [h]
    · simp only [lookupSleep, if_neg hpc] at h
      exact List.mem_cons_of_mem _ (ih h)

theorem removeSleep_found_short (l : List (ℕ × ℚ)) (c : ℕ) (w : ℚ)
    (hlen : l.length ≤ 1) (h : lookupSleep l c = some w) :
    removeSleep l c = [] := by
  cases l with
  | nil => simp [lookupSleep] at h
  | cons p t =>
    obtain ⟨pc, pw⟩ := p
    cases t with
    | nil =>
      by_cases hpc : pc = c
      · simp [removeSleep, hpc]
      · simp [lookupSleep, hpc] at h
    | cons q u => simp at hlen

theorem limRunSeq_inv (cfg : LimCfg) (jit : ℕ → ℚ) :
    ∀ (evs : List LEvent) (st st' : LimSt),
      limRunSeq cfg jit st evs = some st' →
      List.Chain' (fun a b => cfg.delay ≤ b.2 - a.2) st.granted →
      (∀ g ∈ st.granted, g.2 ≤ st.last) →
      (∀ p ∈ st.sleeping, st.last + cfg.delay ≤ p.2) →
      st.last ≤ st.now →
      st.sleeping.length ≤ 1 →
      List.Chain' (fun a b => cfg.delay ≤ b.2 - a.2) st'.granted ∧
        limRun cfg jit st evs = some st' := by
  intro evs
  induction evs with
  | nil =>
    intro st st' h h1 h2 h3 h4 h5
    simp only [limRunSeq] at h
    injection h with h
    subst h
    exact ⟨h1, rfl⟩
  | cons e es ih =>
    intro st st' h h1 h2 h3 h4 h5
    cases e with
    | call c t =>
      simp only [limRunSeq] at h
      by_cases hem : st.sleeping.isEmpty = true
      case neg => rw [if_neg hem] at h; simp at h
      case pos =>
      have hsl : st.sleeping = [] := by
        cases hc : st.sleeping with
        | nil => rfl
        | cons p u => rw [hc] at hem; simp at hem
      rw [if_pos hem] at h
      simp only [limStep] at h
      by_cases hcnd : st.now ≤ t ∧ (!activeCaller st c) = true
      case neg => rw [if_neg hcnd] at h; simp at h
      case pos =>
      rw [if_pos hcnd] at h
      by_cases hw : 0 < cfg.delay - (t - st.last)
      · rw [if_pos hw] at h
        by_cases hj : 0 ≤ jit c ∧ jit c ≤ cfg.jitter
        case neg => rw [if_neg hj] at h; simp at h
        case pos =>
        rw [if_pos hj] at h
        have step := ih _ st' h h1 h2 ?sl (le_trans h4 hcnd.1) ?len
        case sl =>
          intro p hp
          rw [hsl] at hp
          simp only [List.mem_cons, List.not_mem_nil, or_false] at hp
          subst hp
          have : st.last + cfg.delay ≤ t + (cfg.delay - (t - st.last)) := by
            ring_nf
            linarith [hj.1]
          simp only
          linarith [hj.1]
        case len => rw [hsl]; simp
        refine ⟨step.1, ?_⟩
        simp only [limRun, limStep]
        rw [if_pos hcnd, if_pos hw, if_pos hj]
        exact step.2
      · rw [if_neg hw] at h
        have hgap : cfg.delay ≤ t - st.last := by linarith [not_lt.mp hw]
        have step := ih _ st' h ?ch ?gr ?sl (le_refl t) ?len
        case ch =>
          refine List.chain'_append.mpr ⟨h1, List.chain'_singleton _, ?_⟩
          intro x hx y hy
          simp only [List.head?_cons, Option.mem_def, Option.some.injEq] at hy
          subst hy
          have hxm : x ∈ st.granted := List.mem_of_mem_getLast? hx
          have := h2 x hxm
          simp only
          linarith
        case gr =>
          intro g hg
          simp only at hg ⊢
          rcases List.mem_append.mp hg with hg | hg
          · exact le_trans (h2 g hg) (le_trans h4 hcnd.1)
          · simp only [List.mem_singleton] at hg
            subst hg
            exact le_refl t
        case sl =>
          intro p hp
          rw [hsl] at hp
          simp at hp
        case len => rw [hsl]; simp
        refine ⟨step.1, ?_⟩
        simp only [limRun, limStep]
        rw [if_pos hcnd, if_neg hw]
        exact step.2
    | wake c t =>
      simp only [limRunSeq, if_pos] at h
      simp only [limStep] at h
      cases hfind : lookupSleep st.sleeping c with
      | none => rw [hfind] at h; simp at h
      | some wt =>
        rw [hfind] at h
        dsimp only at h
        by_cases hc2 : st.now ≤ t ∧ wt ≤ t
        case neg => rw [if_neg hc2] at h; simp at h
        case pos =>
        rw [if_pos hc2] at h
        have hmem : (c, wt) ∈ st.sleeping := lookupSleep_mem _ _ _ hfind
        have hwt : st.last + cfg.delay ≤ wt := h3 _ hmem
        have hgap : cfg.delay ≤ t - st.last := by
          have := hc2.2
          linarith
        have hrem : removeSleep st.sleeping c = [] :=
          removeSleep_found_short _ _ _ h5 hfind
        have step := ih _ st' h ?ch ?gr ?sl (le_refl t) ?len
        case ch =>
          refine List.chain'_append.mpr ⟨h1, List.chain'_singleton _, ?_⟩
          intro x hx y hy
          simp only [List.head?_cons, Option.mem_def, Option.some.injEq] at hy
          subst hy
          have hxm : x ∈ st.granted := List.mem_of_mem_getLast? hx
          have := h2 x hxm
          simp only
          linarith
        case gr =>
          intro g hg
          simp only at hg ⊢
          rcases List.mem_append.mp hg with hg | hg
          · exact le_trans (h2 g hg) (le_trans h4 hc2.1)
          · simp only [List.mem_singleton] at hg
            subst hg
            exact le_refl t
        case sl =>
          intro p hp
          simp only [hrem] at hp
          simp at hp
        case len => simp [hrem]
        refine ⟨step.1, ?_⟩
        simp only [limRun, limStep]
        rw [hfind]
        dsimp only
        rw [if_pos hc2]
        exact step.2

/-! ## Supporting lemmas about the aggregator -/

theorem lookup_updateGroup (s : List (Str × Counts)) (g g' : Str) (i : Icon) :
    lookupGroup (updateGroup s g' i) g =
      if g' = g then some (bump ((lookupGroup s g).getD {}) i)
      else lookupGroup s g := by
  induction s with
  | nil =>
    by_cases h : g' = g
    · simp [updateGroup, lookupGroup, h]
    · simp [updateGroup, lookupGroup, h]
  | cons a t ih =>
    obtain ⟨ag, ac⟩ := a
    by_cases hag : ag = g'
    · subst hag
      by_cases hg : ag = g
      · subst hg
        simp [updateGroup, lookupGroup]
      · simp [updateGroup, lookupGroup, hg]
    · by_cases hg : ag = g
      · subst hg
        have hg'g : ¬ (g' = ag) := fun h => hag h.symm
        simp [updateGroup, lookupGroup, hag, hg'g]
      · simp [updateGroup, lookupGroup, hag, hg, ih]

theorem addCounts_zero (c : Counts) : addCounts {} c = c := by
  cases c
  simp [addCounts]

theorem countsOf_cons_ne (r : CheckResult) (t : List CheckResult) (g : Str)
    (h : (r.group == g) = false) : countsOf (r :: t) g = countsOf t g := by
  simp [countsOf, List.countP_cons, h]

theorem countsOf_cons_eq (r : CheckResult) (t : List CheckResult) (g : Str)
    (h : (r.group == g) = true) (c : Counts) :
    addCounts (bump c (colorize r).2) (countsOf t g) =
      addCounts c (countsOf (r :: t) g) := by
  cases hi : (colorize r).2 <;>
    simp [countsOf, bump, addCounts, List.countP_cons, h, hi] <;> omega

theorem countsOf_sum (l : List CheckResult) (g : Str) :
    (countsOf l g).ok + (countsOf l g).warn + (countsOf l g).fail =
      l.countP (fun r => r.group == g) := by
  induction l with
  | nil => simp [countsOf]
  | cons r t ih =>
    simp only [countsOf, List.countP_cons] at ih ⊢
    by_cases hg : (r.group == g) = true
    · cases hi : (colorize r).2 <;> simp [hg, hi] <;> omega
    · have hgb : (r.group == g) = false := by simpa using hg
      simp [hgb]
      omega

theorem lookup_build_aux (l : List CheckResult) :
    ∀ (s : List (Str × Counts)) (g : Str),
      (∀ c, lookupGroup s g = some c →
        lookupGroup
          (l.foldl (fun s r => updateGroup s r.group (colorize r).2) s) g =
          some (addCounts c (countsOf l g))) ∧
      (lookupGroup s g = none →
        lookupGroup
          (l.foldl (fun s r => updateGroup s r.group (colorize r).2) s) g =
          (if l.countP (fun r => r.group == g) = 0 then none
            else some (countsOf l g))) := by
  induction l with
  | nil =>
    intro s g
    constructor
    · intro c hc
      simp only [List.foldl_nil, hc, countsOf, List.countP_nil]
      cases c
      simp [addCounts]
    · intro hc
      simp [hc]
  | cons r t ih =>
    intro s g
    have hupd := lookup_updateGroup s g r.group (colorize r).2
    by_cases hg : r.group = g
    · have hgb : (r.group == g) = true := by simp [hg]
      constructor
      · intro c hc
        have h1 : lookupGroup (updateGroup s r.group (colorize r).2) g =
            some (bump c (colorize r).2) := by
          rw [hupd, if_pos hg, hc]
          rfl
        have h2 := (ih (updateGroup s r.group (colorize r).2) g).1 _ h1
        simp only [List.foldl_cons]
        rw [h2, countsOf_cons_eq r t g hgb c]
      · intro hc
        have h1 : lookupGroup (updateGroup s r.group (colorize r).2) g =
            some (bump {} (colorize r).2) := by
          rw [hupd, if_pos hg, hc]
          rfl
        have h2 := (ih (updateGroup s r.group (colorize r).2) g).1 _ h1
        simp only [List.foldl_cons]
        rw [h2, countsOf_cons_eq r t g hgb {}, addCounts_zero]
        have hcp : ¬ (List.countP (fun r => r.group == g) (r :: t) = 0) := by
          simp [List.countP_cons, hgb]
        rw [if_neg hcp]
    · have hgb : (r.group == g) = false := by simp [hg]
      have h1 : lookupGroup (updateGroup s r.group (colorize r).2) g =
          lookupGroup s g := by
        rw [hupd, if_neg hg]
      constructor
      · intro c hc
        have h2 := (ih (updateGroup s r.group (colorize r).2) g).1 c
          (h1.trans hc)
        simp only [List.foldl_cons]
        rw [h2, countsOf_cons_ne r t g hgb]
      · intro hc
        have h2 := (ih (updateGroup s r.group (colorize r).2) g).2
          (h1.trans hc)
        simp only [List.foldl_cons]
        rw [h2, countsOf_cons_ne r t g hgb]
        simp [List.countP_cons, hgb]

/-! ## Claim theorems -/

/-- Claim C1: classification of a `CheckResult` is deterministic with
first-match priority: a detected challenge gives `warning`; otherwise a
missing `dns_ip`, a false `tcp_ok`, or a present `http_status ≥ 400`
each give `failure`; otherwise the outcome is `ok`.  In particular a
result with a challenge and `http_status = 200` classifies as
`warning`. -/
theorem classifier_priority (r : CheckResult) :
    (r.captcha = true → outcomeOf r = .warning) ∧
    (r.captcha = false → r.dns_ip = none → outcomeOf r = .failure) ∧
    (r.captcha = false → r.dns_ip ≠ none → r.tcp_ok = some false →
      outcomeOf r = .failure) ∧
    (∀ s, r.captcha = false → r.dns_ip ≠ none → r.tcp_ok ≠ some false →
      r.http_status = some s → 400 ≤ s → outcomeOf r = .failure) ∧
    (r.captcha = false → r.dns_ip ≠ none → r.tcp_ok ≠ some false →
      (∀ s, r.http_status = some s → s < 400) → outcomeOf r = .ok) ∧
    (r.captcha = true → r.http_status = some 200 → outcomeOf r = .warning) := by
  unfold outcomeOf colorize
  refine ⟨?_, ?_, ?_, ?_, ?_, ?_⟩
  · intro hc; simp [hc]
  · intro hc hd; simp [hc, hd]
  · intro hc hd ht; simp [hc, hd, ht]
  · intro s hc hd ht hs h400
    have h0 : (pyTruthyStatus r.http_status &&
        decide (400 ≤ r.http_status.getD 0)) = true := by
      simp [pyTruthyStatus, hs]
      omega
    simp [hc, hd, ht, h0]
  · intro hc hd ht hlt
    have h0 : (pyTruthyStatus r.http_status &&
        decide (400 ≤ r.http_status.getD 0)) = false := by
      cases hs : r.http_status with
      | none => simp [pyTruthyStatus]
      | some s =>
        have := hlt s hs
        simp [pyTruthyStatus]
        omega
    simp [hc, hd, ht, h0]
  · intro hc _; simp [hc]

/-- Witness for C1: a concrete challenged result with `http_status = 200`
classifies as `warning`. -/
theorem classifier_priority_witness :
    outcomeOf ⟨[], [], [], some (("1.2.3.4").toList), none, some 1,
      some true, none, some 1, some 200, none, some 1, true⟩ = .warning :=
  (classifier_priority _).2.2.2.2.2 rfl rfl

/-- Claim C2: a DNS failure short-circuits the pipeline: whenever the
orchestrator's result has no `dns_ip`, every TCP and HTTP field is unset
and no challenge is flagged. -/
theorem dns_failure_short_circuits (cfg : Config) (dnsO : ℕ → ℚ → DnsAttempt)
    (tcpO : ℕ → ℚ → TcpAttempt) (httpO : ℕ → ℚ → HttpAttempt)
    (jitD jitT jitH : ℕ → ℚ) (entry : Entry) :
    (check_url cfg dnsO tcpO httpO jitD jitT jitH entry).dns_ip = none →
    (check_url cfg dnsO tcpO httpO jitD jitT jitH entry).tcp_ok = none ∧
    (check_url cfg dnsO tcpO httpO jitD jitT jitH entry).tcp_error = none ∧
    (check_url cfg dnsO tcpO httpO jitD jitT jitH entry).tcp_latency = none ∧
    (check_url cfg dnsO tcpO httpO jitD jitT jitH entry).http_status = none ∧
    (check_url cfg dnsO tcpO httpO jitD jitT jitH entry).http_error = none ∧
    (check_url cfg dnsO tcpO httpO jitD jitT jitH entry).http_latency = none ∧
    (check_url cfg dnsO tcpO httpO jitD jitT jitH entry).captcha = false := by
  intro h
  simp only [check_url] at h ⊢
  cases htr : pyTruthyOptStr (async_dns_lookup dnsO jitD cfg.retries).value.1 with
  | false => simp [htr]
  | true =>
    exfalso
    rw [htr] at h
    simp only [Bool.not_true, Bool.false_eq_true, if_false] at h
    rw [h] at htr
    simp [pyTruthyOptStr] at htr

/-- Witness for C2: with an always-failing DNS oracle the result of
`check_url` has no `dns_ip` and every downstream field unset. -/
theorem dns_failure_short_circuits_witness :
    (check_url {} (fun _ _ => DnsAttempt.timeout) (fun _ _ => TcpAttempt.timeout)
      (fun _ _ => HttpAttempt.timeout) (fun _ => 0) (fun _ => 0) (fun _ => 0)
      ⟨[], [], [], []⟩).dns_ip = none ∧
    (check_url {} (fun _ _ => DnsAttempt.timeout) (fun _ _ => TcpAttempt.timeout)
      (fun _ _ => HttpAttempt.timeout) (fun _ => 0) (fun _ => 0) (fun _ => 0)
      ⟨[], [], [], []⟩).http_status = none ∧
    (check_url {} (fun _ _ => DnsAttempt.timeout) (fun _ _ => TcpAttempt.timeout)
      (fun _ _ => HttpAttempt.timeout) (fun _ => 0) (fun _ => 0) (fun _ => 0)
      ⟨[], [], [], []⟩).captcha = false := by
  refine ⟨by decide, ?_, ?_⟩
  · exact (dns_failure_short_circuits {} _ _ _ _ _ _ _ (by decide)).2.2.2.1
  · exact (dns_failure_short_circuits {} _ _ _ _ _ _ _ (by decide)).2.2.2.2.2.2

/-- Claim C3: when the orchestrator's result carries a `dns_ip`, both the
TCP and the HTTP stage were attempted regardless of the TCP outcome:
`tcp_ok` is set, and `http_status` or `http_error` is set.  The
hypothesis records that the resolver reports only non-empty addresses,
as `aiodns.gethostbyname` does. -/
theorem dns_present_runs_tcp_http (cfg : Config) (dnsO : ℕ → ℚ → DnsAttempt)
    (tcpO : ℕ → ℚ → TcpAttempt) (httpO : ℕ → ℚ → HttpAttempt)
    (jitD jitT jitH : ℕ → ℚ) (entry : Entry)
    (hip : ∀ k t ip lat, dnsO k t = DnsAttempt.found ip lat → ip ≠ []) :
    (check_url cfg dnsO tcpO httpO jitD jitT jitH entry).dns_ip ≠ none →
    (check_url cfg dnsO tcpO httpO jitD jitT jitH entry).tcp_ok ≠ none ∧
    ((check_url cfg dnsO tcpO httpO jitD jitT jitH entry).http_status ≠ none ∨
      (check_url cfg dnsO tcpO httpO jitD jitT jitH entry).http_error ≠ none) := by
  intro hd
  simp only [check_url] at hd ⊢
  cases htr : pyTruthyOptStr (async_dns_lookup dnsO jitD cfg.retries).value.1 with
  | true =>
    simp only [htr, Bool.not_true, Bool.false_eq_true, if_false] at hd ⊢
    refine ⟨by simp, ?_⟩
    rcases http_value_total httpO jitH cfg.retries with h | h
    · left
      exact Option.ne_none_iff_isSome.mpr h
    · right
      exact Option.ne_none_iff_isSome.mpr h
  | false =>
    exfalso
    simp only [htr, Bool.not_false, if_true] at hd
    cases hv : (async_dns_lookup dnsO jitD cfg.retries).value.1 with
    | none => exact hd hv
    | some s =>
      have hs : s = [] := by
        rw [hv] at htr
        simpa [pyTruthyOptStr] using htr
      rcases dns_value_some dnsO jitD cfg.retries s hv with ⟨k, lat, _, hk⟩
      exact hip k 3.0 s lat hk hs

/-- Witness for C3: a resolving oracle yields a result whose TCP and
HTTP stage fields are populated. -/
theorem dns_present_runs_tcp_http_witness :
    (∀ k t ip lat,
      (fun (_ : ℕ) (_ : ℚ) => DnsAttempt.found (("9.9.9.9").toList) 1) k t =
        DnsAttempt.found ip lat → ip ≠ []) ∧
    ((check_url {} (fun _ _ => DnsAttempt.found (("9.9.9.9").toList) 1)
        (fun _ _ => TcpAttempt.timeout) (fun _ _ => HttpAttempt.timeout)
        (fun _ => 0) (fun _ => 0) (fun _ => 0) ⟨[], [], [], []⟩).tcp_ok ≠ none ∧
      ((check_url {} (fun _ _ => DnsAttempt.found (("9.9.9.9").toList) 1)
          (fun _ _ => TcpAttempt.timeout) (fun _ _ => HttpAttempt.timeout)
          (fun _ => 0) (fun _ => 0) (fun _ => 0)
          ⟨[], [], [], []⟩).http_status ≠ none ∨
        (check_url {} (fun _ _ => DnsAttempt.found (("9.9.9.9").toList) 1)
          (fun _ _ => TcpAttempt.timeout) (fun _ _ => HttpAttempt.timeout)
          (fun _ => 0) (fun _ => 0) (fun _ => 0)
          ⟨[], [], [], []⟩).http_error ≠ none)) := by
  have hip : ∀ k t ip lat,
      (fun (_ : ℕ) (_ : ℚ) => DnsAttempt.found (("9.9.9.9").toList) 1) k t =
        DnsAttempt.found ip lat → ip ≠ [] := by
    intro k t ip lat h
    injection h with h1 h2
    rw [← h1]
    decide
  exact ⟨hip, dns_present_runs_tcp_http {} _ _ _ _ _ _ ⟨[], [], [], []⟩ hip
    (by decide)⟩

/-- Claim C5: with retry count `R`, an exhausted probe stage performs
exactly `R + 1` attempts, sleeps `base * 2 ^ k + jitter k` after each
failed attempt `k < R` (base 0.2 for DNS/TCP, 0.3 for HTTP), and the
returned failure carries the description of the last attempt's error. -/
theorem retry_exhaustion_schedule (R : ℕ) (dnsO : ℕ → ℚ → DnsAttempt)
    (tcpO : ℕ → ℚ → TcpAttempt) (httpO : ℕ → ℚ → HttpAttempt)
    (jitD jitT jitH : ℕ → ℚ)
    (hd : ∀ k ip lat, dnsO k 3.0 ≠ DnsAttempt.found ip lat)
    (ht : ∀ k lat, tcpO k 3.0 ≠ TcpAttempt.connected lat)
    (hh : ∀ k st cap lat, httpO k 10.0 ≠ HttpAttempt.response st cap lat) :
    ((async_dns_lookup dnsO jitD R).attempts = R + 1 ∧
      (async_dns_lookup dnsO jitD R).value =
        (none, some ((dnsO R 3.0).describe), none) ∧
      (async_dns_lookup dnsO jitD R).sleeps =
        (List.range R).map (fun k => 0.2 * 2 ^ k + jitD k)) ∧
    ((async_tcp_check tcpO jitT R).attempts = R + 1 ∧
      (async_tcp_check tcpO jitT R).value =
        (false, some ((tcpO R 3.0).describe), none) ∧
      (async_tcp_check tcpO jitT R).sleeps =
        (List.range R).map (fun k => 0.2 * 2 ^ k + jitT k)) ∧
    ((async_http_check httpO jitH R).attempts = R + 1 ∧
      (async_http_check httpO jitH R).value =
        (none, some ((httpO R 10.0).describe), false, none) ∧
      (async_http_check httpO jitH R).sleeps =
        (List.range R).map (fun k => 0.3 * 2 ^ k + jitH k)) := by
  rw [async_dns_lookup_allfail dnsO jitD R hd,
    async_tcp_check_allfail tcpO jitT R ht,
    async_http_check_allfail httpO jitH R hh]
  exact ⟨⟨rfl, rfl, rfl⟩, ⟨rfl, rfl, rfl⟩, ⟨rfl, rfl, rfl⟩⟩

/-- Witness for C5: with `retries = 2` and every attempt timing out, each
stage performs exactly 3 attempts and reports the timeout message. -/
theorem retry_exhaustion_schedule_witness :
    (∀ k ip lat, (fun (_ : ℕ) (_ : ℚ) => DnsAttempt.timeout) k (3.0 : ℚ) ≠
      DnsAttempt.found ip lat) ∧
    (∀ k lat, (fun (_ : ℕ) (_ : ℚ) => TcpAttempt.timeout) k (3.0 : ℚ) ≠
      TcpAttempt.connected lat) ∧
    (∀ k st cap lat, (fun (_ : ℕ) (_ : ℚ) => HttpAttempt.timeout) k (10.0 : ℚ) ≠
      HttpAttempt.response st cap lat) ∧
    (async_dns_lookup (fun _ _ => DnsAttempt.timeout) (fun _ => 0) 2).attempts = 3 ∧
    (async_dns_lookup (fun _ _ => DnsAttempt.timeout) (fun _ => 0) 2).value =
      (none, some (("DNS timeout").toList), none) ∧
    (async_tcp_check (fun _ _ => TcpAttempt.timeout) (fun _ => 0) 2).attempts = 3 ∧
    (async_http_check (fun _ _ => HttpAttempt.timeout) (fun _ => 0) 2).attempts = 3 := by
  have h1 : ∀ k ip lat, (fun (_ : ℕ) (_ : ℚ) => DnsAttempt.timeout) k (3.0 : ℚ) ≠
      DnsAttempt.found ip lat := fun _ _ _ h => DnsAttempt.noConfusion h
  have h2 : ∀ k lat, (fun (_ : ℕ) (_ : ℚ) => TcpAttempt.timeout) k (3.0 : ℚ) ≠
      TcpAttempt.connected lat := fun _ _ h => TcpAttempt.noConfusion h
  have h3 : ∀ k st cap lat, (fun (_ : ℕ) (_ : ℚ) => HttpAttempt.timeout) k (10.0 : ℚ) ≠
      HttpAttempt.response st cap lat := fun _ _ _ _ h => HttpAttempt.noConfusion h
  have main := retry_exhaustion_schedule 2 (fun _ _ => DnsAttempt.timeout)
    (fun _ _ => TcpAttempt.timeout) (fun _ _ => HttpAttempt.timeout)
    (fun _ => 0) (fun _ => 0) (fun _ => 0) h1 h2 h3
  exact ⟨h1, h2, h3, main.1.1, main.1.2.1, main.2.1.1, main.2.2.1⟩

/-- Claim C6: every probe converts environment faults into a returned
value: for every attempt oracle the stage value is either the success
built from a successful attempt, or — when every attempt fails — the
failure carrying the human-readable description of the last attempt's
error.  No fault escapes a probe. -/
theorem probe_fault_to_value (dnsO : ℕ → ℚ → DnsAttempt)
    (tcpO : ℕ → ℚ → TcpAttempt) (httpO : ℕ → ℚ → HttpAttempt)
    (jitD jitT jitH : ℕ → ℚ) (R : ℕ) :
    ((∃ k ip lat, k ≤ R ∧ dnsO k 3.0 = DnsAttempt.found ip lat ∧
        (async_dns_lookup dnsO jitD R).value = (some ip, none, some lat)) ∨
      ((∀ k, k ≤ R → ∀ ip lat, dnsO k 3.0 ≠ DnsAttempt.found ip lat) ∧
        (async_dns_lookup dnsO jitD R).value =
          (none, some ((dnsO R 3.0).describe), none))) ∧
    ((∃ k lat, k ≤ R ∧ tcpO k 3.0 = TcpAttempt.connected lat ∧
        (async_tcp_check tcpO jitT R).value = (true, none, some lat)) ∨
      ((∀ k, k ≤ R → ∀ lat, tcpO k 3.0 ≠ TcpAttempt.connected lat) ∧
        (async_tcp_check tcpO jitT R).value =
          (false, some ((tcpO R 3.0).describe), none))) ∧
    ((∃ k st cap lat, k ≤ R ∧ httpO k 10.0 = HttpAttempt.response st cap lat ∧
        (async_http_check httpO jitH R).value = (some st, none, cap, some lat)) ∨
      ((∀ k, k ≤ R → ∀ st cap lat, httpO k 10.0 ≠ HttpAttempt.response st cap lat) ∧
        (async_http_check httpO jitH R).value =
          (none, some ((httpO R 10.0).describe), false, none))) :=
  ⟨async_dns_lookup_cases dnsO jitD R, async_tcp_check_cases tcpO jitT R,
    async_http_check_cases httpO jitH R⟩

/-- Witness for C6 at concrete oracles: a failing DNS oracle takes the
failure branch, a succeeding TCP oracle the success branch. -/
theorem probe_fault_to_value_witness :
    (async_dns_lookup (fun _ _ => DnsAttempt.err (("boom").toList))
      (fun _ => 0) 1).value =
      (none, some (("boom").toList), none) ∧
    (async_tcp_check (fun _ _ => TcpAttempt.connected 1) (fun _ => 0) 1).value =
      (true, none, some 1) := by
  have main := probe_fault_to_value (fun _ _ => DnsAttempt.err (("boom").toList))
    (fun _ _ => TcpAttempt.connected 1) (fun _ _ => HttpAttempt.timeout)
    (fun _ => 0) (fun _ => 0) (fun _ => 0) 1
  refine ⟨?_, ?_⟩
  · rcases main.1 with ⟨k, ip, lat, _, hk, _⟩ | ⟨_, hv⟩
    · exact absurd hk (by simp)
    · exact hv
  · rcases main.2.1 with ⟨k, lat, _, hk, hv⟩ | ⟨hall, _⟩
    · have : lat = 1 := by
        have := hk.symm
        injection this
      rw [hv, this]
    · exact absurd rfl (hall 0 (by omega) 1)

/-- Claim C9 is refuted (code bug): each probe's per-attempt timeout is a
hard-coded constant — 3.0 s for DNS, 3.0 s for TCP, 10.0 s for HTTP —
used on every attempt, while the recognised configuration options
`dns_timeout` / `tcp_timeout` / `http_timeout` can hold different values
that the probes never read. -/
theorem stage_timeouts_ignore_config (dnsO : ℕ → ℚ → DnsAttempt)
    (tcpO : ℕ → ℚ → TcpAttempt) (httpO : ℕ → ℚ → HttpAttempt)
    (jitD jitT jitH : ℕ → ℚ) (R : ℕ) :
    ((async_dns_lookup dnsO jitD R).timeouts =
        List.replicate (async_dns_lookup dnsO jitD R).attempts 3.0 ∧
      1 ≤ (async_dns_lookup dnsO jitD R).attempts) ∧
    ((async_tcp_check tcpO jitT R).timeouts =
        List.replicate (async_tcp_check tcpO jitT R).attempts 3.0 ∧
      1 ≤ (async_tcp_check tcpO jitT R).attempts) ∧
    ((async_http_check httpO jitH R).timeouts =
        List.replicate (async_http_check httpO jitH R).attempts 10.0 ∧
      1 ≤ (async_http_check httpO jitH R).attempts) ∧
    ∃ cfg : Config, cfg.retries = R ∧ cfg.dns_timeout ≠ 3.0 ∧
      cfg.tcp_timeout ≠ 3.0 ∧ cfg.http_timeout ≠ 10.0 := by
  unfold async_dns_lookup async_tcp_check async_http_check
  refine ⟨⟨?_, ?_⟩, ⟨?_, ?_⟩, ⟨?_, ?_⟩, ?_⟩
  · exact retryLoop_timeouts _ _ _ _ _ _ _ _ (R + 1) 0
  · exact retryLoop_attempts_pos _ _ _ _ _ _ _ _ (R + 1) 0 (by omega)
  · exact retryLoop_timeouts _ _ _ _ _ _ _ _ (R + 1) 0
  · exact retryLoop_attempts_pos _ _ _ _ _ _ _ _ (R + 1) 0 (by omega)
  · exact retryLoop_timeouts _ _ _ _ _ _ _ _ (R + 1) 0
  · exact retryLoop_attempts_pos _ _ _ _ _ _ _ _ (R + 1) 0 (by omega)
  · exact ⟨{ retries := R, dns_timeout := 5, tcp_timeout := 6, http_timeout := 7 }, rfl, by norm_num, by norm_num, by norm_num⟩

/-- Claim C8: aggregation is order-independent and exact: permuting the
result list leaves the summary mapping unchanged, and each group's
bucket counts sum to the number of results of that group (every result
of the group lands in exactly one bucket). -/
theorem build_summary_perm_exact :
    (∀ l1 l2 : List CheckResult, l1.Perm l2 →
      ∀ g, lookupGroup (build_summary l1) g = lookupGroup (build_summary l2) g) ∧
    (∀ (l : List CheckResult) (g : Str) (c : Counts),
      lookupGroup (build_summary l) g = some c →
      c.ok + c.warn + c.fail = l.countP (fun r => r.group == g)) := by
  have hchar : ∀ (l : List CheckResult) (g : Str),
      lookupGroup (build_summary l) g =
        (if l.countP (fun r => r.group == g) = 0 then none
          else some (countsOf l g)) := by
    intro l g
    exact (lookup_build_aux l [] g).2 rfl
  constructor
  · intro l1 l2 hp g
    rw [hchar, hchar]
    have hcp : l1.countP (fun r => r.group == g) =
        l2.countP (fun r => r.group == g) := hp.countP_eq _
    have hco : countsOf l1 g = countsOf l2 g := by
      unfold countsOf
      rw [hp.countP_eq, hp.countP_eq, hp.countP_eq]
    rw [hcp, hco]
  · intro l g c hc
    rw [hchar] at hc
    by_cases h0 : l.countP (fun r => r.group == g) = 0
    · rw [if_pos h0] at hc
      exact absurd hc (by simp)
    · rw [if_neg h0] at hc
      have hce : countsOf l g = c := by injection hc
      rw [← hce]
      exact countsOf_sum l g

/-- Witness for C8 on a two-element batch: swapping the list leaves the
summary lookup unchanged, and the bucket counts of group `A` sum to its
result count. -/
theorem build_summary_perm_exact_witness :
    [exampleFail, exampleOk].Perm [exampleOk, exampleFail] ∧
    lookupGroup (build_summary [exampleFail, exampleOk]) (("A").toList) =
      lookupGroup (build_summary [exampleOk, exampleFail]) (("A").toList) ∧
    lookupGroup (build_summary [exampleOk, exampleFail]) (("A").toList) =
      some ⟨1, 0, 1⟩ ∧
    (⟨1, 0, 1⟩ : Counts).ok + (⟨1, 0, 1⟩ : Counts).warn +
        (⟨1, 0, 1⟩ : Counts).fail =
      List.countP (fun r => r.group == ("A").toList)
        [exampleOk, exampleFail] :=
  ⟨List.Perm.swap exampleOk exampleFail [],
    build_summary_perm_exact.1 [exampleFail, exampleOk]
      [exampleOk, exampleFail] (List.Perm.swap exampleOk exampleFail [])
      (("A").toList),
    by decide,
    build_summary_perm_exact.2 [exampleOk, exampleFail] (("A").toList)
      ⟨1, 0, 1⟩ (by decide)⟩

/-- Claim C10 (implicit): under the pipeline invariant for results with
`dns_ip` present, the classifier and `is_success` disagree exactly on
results with `dns_ip` present, `tcp_ok = true`, `http_status` absent
with an HTTP error recorded, and no challenge: such a result classifies
`ok` — and is counted in the `ok` bucket of its group's summary — while
`is_success` returns `false`; conversely every `is_success` result
classifies `ok`. -/
theorem ok_bucket_vs_is_success (r : CheckResult)
    (hinv : r.dns_ip ≠ none →
      r.tcp_ok ≠ none ∧ (r.http_status ≠ none ∨ r.http_error ≠ none)) :
    ((outcomeOf r = .ok ∧ r.is_success = false) ↔
      (r.dns_ip ≠ none ∧ r.tcp_ok = some true ∧ r.http_status = none ∧
        r.http_error ≠ none ∧ r.captcha = false)) ∧
    (r.is_success = true → outcomeOf r = .ok) ∧
    ((r.dns_ip ≠ none ∧ r.tcp_ok = some true ∧ r.http_status = none ∧
        r.captcha = false) →
      lookupGroup (build_summary [r]) r.group = some ⟨1, 0, 0⟩) := by
  refine ⟨⟨?_, ?_⟩, ?_, ?_⟩
  · rintro ⟨hok, hfl⟩
    have hicon : (colorize r).2 = Icon.ok := by
      unfold outcomeOf at hok
      rcases hcol : (colorize r).2 with _ | _ | _ | _ <;>
        rw [hcol] at hok <;> simp_all
    have hc : r.captcha = false := by
      by_contra hcc
      have hct : r.captcha = true := by
        revert hcc
        cases r.captcha <;> simp
      rw [colorize] at hicon
      simp [hct] at hicon
    have hd : r.dns_ip ≠ none := by
      intro hdd
      rw [colorize] at hicon
      simp [hc, hdd] at hicon
    have ht' : r.tcp_ok ≠ some false := by
      intro htt
      rw [colorize] at hicon
      simp [hc, hd, htt] at hicon
    have hcond : (pyTruthyStatus r.http_status &&
        decide (400 ≤ r.http_status.getD 0)) = false := by
      by_contra hx
      have hx' : (pyTruthyStatus r.http_status &&
          decide (400 ≤ r.http_status.getD 0)) = true := by
        revert hx
        cases (pyTruthyStatus r.http_status &&
          decide (400 ≤ r.http_status.getD 0)) <;> simp
      rw [colorize] at hicon
      simp [hc, hd, ht', hx'] at hicon
    have htok : r.tcp_ok = some true := by
      rcases hinv hd with ⟨hts, _⟩
      cases htc : r.tcp_ok with
      | none => exact absurd htc hts
      | some b =>
        cases b with
        | false => exact absurd htc ht'
        | true => rfl
    obtain ⟨dipv, hdipv⟩ : ∃ v, r.dns_ip = some v := by
      cases hdd : r.dns_ip with
      | none => exact absurd hdd hd
      | some v => exact ⟨v, rfl⟩
    have hstn : r.http_status = none := by
      cases hsc : r.http_status with
      | none => rfl
      | some s =>
        exfalso
        rw [hsc] at hcond
        simp only [pyTruthyStatus, Option.getD_some, Bool.and_eq_false_iff,
          decide_eq_false_iff_not, Decidable.not_not, not_le] at hcond
        have hslt : s < 400 := by
          rcases hcond with h | h
          · omega
          · exact h
        rw [CheckResult.is_success] at hfl
        simp [hdipv, htok, hsc, hslt, hc] at hfl
    refine ⟨hd, htok, hstn, ?_, hc⟩
    rcases (hinv hd).2 with h | h
    · exact absurd hstn h
    · exact h
  · rintro ⟨hd, ht, hs, _, hc⟩
    constructor
    · unfold outcomeOf colorize
      simp [hc, hd, ht, hs, pyTruthyStatus]
    · rw [CheckResult.is_success]
      simp [hs]
  · intro hsucc
    rw [CheckResult.is_success] at hsucc
    simp only [Bool.and_eq_true, beq_iff_eq, Bool.not_eq_true'] at hsucc
    obtain ⟨⟨⟨hdip, htok⟩, hmatch⟩, hcap⟩ := hsucc
    cases hsc : r.http_status with
    | none => rw [hsc] at hmatch; simp at hmatch
    | some s =>
      rw [hsc] at hmatch
      simp only [decide_eq_true_eq] at hmatch
      have hd : r.dns_ip ≠ none := by
        cases hdd : r.dns_ip with
        | none => rw [hdd] at hdip; simp at hdip
        | some v => simp
      have hnle : ¬ (400 ≤ s) := by omega
      unfold outcomeOf colorize
      simp [hcap, hd, htok, hsc, pyTruthyStatus, hnle]
  · rintro ⟨hd, ht, hs, hc⟩
    have hicon : (colorize r).2 = Icon.ok := by
      unfold colorize
      simp [hc, hd, ht, hs, pyTruthyStatus]
    unfold build_summary
    simp only [List.foldl_cons, List.foldl_nil]
    rw [hicon]
    simp [updateGroup, bump, lookupGroup]

/-- Witness for C10: a concrete result with an HTTP error and no status
satisfies the invariant, classifies `ok` while `is_success` is false,
and lands in the `ok` bucket of its group. -/
theorem ok_bucket_vs_is_success_witness :
    (exampleHttpErr.dns_ip ≠ none →
      exampleHttpErr.tcp_ok ≠ none ∧
        (exampleHttpErr.http_status ≠ none ∨
          exampleHttpErr.http_error ≠ none)) ∧
    (outcomeOf exampleHttpErr = .ok ∧ exampleHttpErr.is_success = false) ∧
    lookupGroup (build_summary [exampleHttpErr]) exampleHttpErr.group =
      some ⟨1, 0, 0⟩ := by
  have hinv : exampleHttpErr.dns_ip ≠ none →
      exampleHttpErr.tcp_ok ≠ none ∧
        (exampleHttpErr.http_status ≠ none ∨
          exampleHttpErr.http_error ≠ none) := by decide
  refine ⟨hinv, ?_, ?_⟩
  · exact (ok_bucket_vs_is_success exampleHttpErr hinv).1.mpr (by decide)
  · exact (ok_bucket_vs_is_success exampleHttpErr hinv).2.2 (by decide)

/-- Counterexample to C4 as stated: `RateLimiter.wait` holds no lock and
writes the shared `last_request` only after sleeping, so two callers
that both read the same stale timestamp sleep relative to it and are
granted simultaneously.  With `delay = 1`, `jitter = 0`: caller 0 is
granted at t = 5; callers 1 and 2 both enter at t = 5, both compute a
wait of 1 s from the same timestamp, both sleep until t = 6 and are both
granted at t = 6 — two HTTP attempts separated by 0 < delay. -/
theorem rate_limiter_race_counterexample :
    (limRun ⟨1, 0⟩ (fun _ => 0) limInit
        [LEvent.call 0 5, LEvent.call 1 5, LEvent.call 2 5,
          LEvent.wake 1 6, LEvent.wake 2 6]).map (fun st => st.granted) =
      some [(0, 5), (1, 6), (2, 6)] ∧
    ¬ spacedBy 1 [(0, 5), (1, 6), (2, 6)] := by
  constructor
  · norm_num [limRun, limStep, limInit, activeCaller, lookupSleep, removeSleep]
  · intro h
    unfold spacedBy at h
    rcases List.chain'_cons.mp (List.chain'_cons.mp h).2 with ⟨h2, _⟩
    norm_num at h2

/-- Claim C4 amended: the limiter does not serialize concurrent callers
(see the race counterexample); but for every schedule in which `wait()`
calls never overlap — each caller enters only after all earlier callers
have been granted — consecutive grants are at least `delay` apart, and
such a schedule is also an admissible schedule of the unrestricted
semantics. -/
theorem rate_limiter_sequential_spacing (cfg : LimCfg) (jit : ℕ → ℚ)
    (evs : List LEvent) (st : LimSt)
    (h : limRunSeq cfg jit limInit evs = some st) :
    spacedBy cfg.delay st.granted ∧ limRun cfg jit limInit evs = some st := by
  have hrun := limRunSeq_inv cfg jit evs limInit st h (by simp [limInit])
    (by simp [limInit]) (by simp [limInit]) (by simp [limInit])
    (by simp [limInit])
  exact ⟨hrun.1, hrun.2⟩

/-- Witness for the amended C4: two back-to-back non-overlapping callers
through a limiter with `delay = 1` are granted 1 s apart. -/
theorem rate_limiter_sequential_spacing_witness :
    limRunSeq ⟨1, 0⟩ (fun _ => 0) limInit
        [LEvent.call 0 5, LEvent.call 1 6] =
      some ⟨6, 6, [], [(0, 5), (1, 6)]⟩ ∧
    spacedBy 1 [(0, 5), (1, 6)] := by
  have hrun : limRunSeq ⟨1, 0⟩ (fun _ => 0) limInit
      [LEvent.call 0 5, LEvent.call 1 6] =
      some ⟨6, 6, [], [(0, 5), (1, 6)]⟩ := by
    norm_num [limRunSeq, limStep, limInit, activeCaller, lookupSleep,
      removeSleep]
  exact ⟨hrun,
    (rate_limiter_sequential_spacing ⟨1, 0⟩ (fun _ => 0) _ _ hrun).1⟩

/-- Claim C7: URL normalization is a pure function with
`normalize("example.com") = "https://example.com"`,
`normalize(" foo.com : 8080 ") = "https://foo.com:8080"`,
`normalize("::::") = none`; an `https://` scheme is prefixed whenever no
`http://` or `https://` scheme is present after cleaning; when the port
component is unparsable the returned URL (if any) is rebuilt from scheme,
host and path — port dropped, path kept — and re-parsed; and an input is
rejected only with a hostname check: any returned URL parses with a
hostname present. -/
theorem normalize_url_spec :
    normalize_url (("example.com").toList) =
      .ok (some (("https://example.com").toList)) ∧
    normalize_url ((" foo.com : 8080 ").toList) =
      .ok (some (("https://foo.com:8080").toList)) ∧
    normalize_url (("::::").toList) = .ok none ∧
    (∀ raw u, schemePresent (cleanUrl (pyStrip raw)) = false →
      normalize_url raw = .ok (some u) →
      ("https://").toList.isPrefixOf u = true) ∧
    (∀ raw parsed host res, pyStrip raw ≠ [] →
      pyUrlparse (withScheme (cleanUrl (pyStrip raw))) = .ok parsed →
      pyPortExc parsed.netloc = .error () →
      pyHostname parsed.netloc = some host →
      normalize_url raw = .ok res →
      res = none ∨
        res = some (parsed.scheme ++ ("://").toList ++ host ++ parsed.path)) ∧
    (∀ raw u, normalize_url raw = .ok (some u) →
      ∃ p, pyUrlparse u = .ok p ∧ (pyHostname p.netloc).isSome = true) := by
  refine ⟨by rfl, by rfl, by rfl, ?_, ?_, ?_⟩
  · intro raw u hsp hnu
    obtain ⟨hr1, hps⟩ := normalize_url_ok_some raw u hnu
    have hws : withScheme (cleanUrl (pyStrip raw)) =
        ("https://").toList ++ cleanUrl (pyStrip raw) := by
      unfold withScheme
      rw [if_neg (by simp [hsp])]
    rw [hws] at hps
    obtain ⟨parsed, hp, hcase⟩ := normalizeParse_ok_some _ _ hps
    rcases hcase with ⟨_, hu, _⟩ | ⟨_, host, p2, _, hu, _, _⟩
    · rw [hu, List.isPrefixOf_iff_prefix]
      exact List.prefix_append _ _
    · obtain ⟨q, hq, hqs⟩ := pyUrlparse_scheme _ _ hp
      have hsch : parsed.scheme = ("https").toList := by
        rw [← hqs]
        exact pyUrlsplit_scheme_https _ _ hq
      rw [hu, hsch, List.isPrefixOf_iff_prefix]
      have hsplit : ("https").toList ++ ("://").toList ++ host ++ parsed.path =
          ("https://").toList ++ (host ++ parsed.path) := by
        rw [List.append_assoc]
        rfl
      rw [hsplit]
      exact List.prefix_append _ _
  · intro raw parsed host res hr1 hp hport hhost hn
    unfold normalize_url at hn
    rw [if_neg hr1] at hn
    unfold normalizeParse at hn
    rw [hp] at hn
    dsimp only at hn
    rw [hport] at hn
    dsimp only at hn
    rw [hhost] at hn
    dsimp only at hn
    cases hp2 : pyUrlparse (parsed.scheme ++ ("://").toList ++ host ++
        parsed.path) with
    | error e2 => rw [hp2] at hn; simp at hn
    | ok p2 =>
      rw [hp2] at hn
      dsimp only at hn
      injection hn with hn
      unfold checkedUrl at hn
      by_cases hh : (pyHostname p2.netloc).isSome = true
      · rw [if_pos hh] at hn
        right
        exact hn.symm
      · rw [if_neg hh] at hn
        left
        exact hn.symm
  · intro raw u hnu
    obtain ⟨hr1, hps⟩ := normalize_url_ok_some raw u hnu
    obtain ⟨parsed, hp, hcase⟩ := normalizeParse_ok_some _ _ hps
    rcases hcase with ⟨_, hu, hhn⟩ | ⟨_, host, p2, _, hu, hpu, hhn⟩
    · exact ⟨parsed, by rw [hu]; exact hp, hhn⟩
    · exact ⟨p2, hpu, hhn⟩

theorem normalize_url_spec_witness :
    schemePresent (cleanUrl (pyStrip (("example.com").toList))) = false ∧
    ("https://").toList.isPrefixOf (("https://example.com").toList) = true := by
  refine ⟨by rfl, ?_⟩
  exact normalize_url_spec.2.2.2.1 (("example.com").toList)
    (("https://example.com").toList) (by rfl) (by rfl)

end WebCheck

